import Mathlib

/-!
Verification of the PDF report layout engine of the link-to-repo-fetcher
repository.

The repository contains several near-duplicate report generators; the claims
cite two of them:

* `src/src/utils/pdfGenerator.ts` (called variant V1 below), and
* the second generator inside `src/unnamed/part_001`, lines 997-1921
  (called variant V2 below; the file concatenates two versions of the
  generator, and all cited line numbers fall in the second one).

Numbers computed by the TypeScript code are JavaScript IEEE doubles; the
shallow embedding uses `ℚ` and models the exact arithmetic the code
performs.  Where a claim depends on a genuine JavaScript float artefact
(division by zero producing NaN) the embedding makes that case explicit with
an `Option ℚ` value, `none` standing for the non-finite result; each such
place is documented at its definition.  Angles of the chart renderers are
represented by their coefficient of π (so the full circle is the rational
number 2); theorems that speak about real angles multiply by `Real.pi`.
-/

/-! ### Formatter utilities

Embeddings of `formatCurrency`, `toFixed`, `toLocaleString('en-IN')` and the
sanitizer `clean` of variant V2 (`src/unnamed/part_001`, lines 1019-1044).
-/

/-- `Math.round` / the rounding used by `Number.prototype.toFixed`: round to
the nearest integer, ties towards `+∞` (ECMA-262 chooses the larger
candidate). -/
def jsRound (q : ℚ) : ℤ := Int.floor (q + 1 / 2)

/-- Left-pad a string with zeros to the given length. -/
def padZeros (d : ℕ) (s : String) : String :=
  String.mk (List.replicate (d - s.length) '0') ++ s

/-- Rendering of the scaled integer `n = round(q * 10^d)` produced by
`toFixed(d)`: sign, integer digits, decimal point, `d` fractional digits. -/
def toFixedInt (d : ℕ) (n : ℤ) : String :=
  if d = 0 then toString n
  else
    (if n < 0 then "-" else "") ++ toString (n.natAbs / 10 ^ d) ++ "." ++
      padZeros d (toString (n.natAbs % 10 ^ d))

/-- `Number.prototype.toFixed(d)`: fixed-point rendering with `d` fractional
digits, rounding to the nearest multiple of `10^(-d)` with ties towards the
larger candidate. -/
def toFixed (d : ℕ) (q : ℚ) : String :=
  toFixedInt d (Int.floor (q * (10 : ℚ) ^ d + 1 / 2))

/-- Insert the en-IN digit-group separators into a reversed digit list:
a group of 3 at the end of the number, then groups of 2. `limit` is the size
of the current group and `cnt` the number of digits already emitted into it. -/
def commasRev (limit cnt : ℕ) : List Char → List Char
  | [] => []
  | c :: rest =>
      if cnt = limit then ',' :: c :: commasRev 2 1 rest
      else c :: commasRev limit (cnt + 1) rest

/-- Indian-style digit grouping of a natural number (`en-IN` locale):
`5000 ↦ "5,000"`, `120000000 ↦ "12,00,00,000"`. -/
def groupIndian (n : ℕ) : String :=
  String.mk (commasRev 3 0 (toString n).toList.reverse).reverse

/-- Drop trailing `'0'` characters (used for the fractional part produced by
`toLocaleString`, whose default format has no trailing zeros). -/
def dropTrailZeros (s : String) : String :=
  String.mk ((s.toList.reverse.dropWhile (fun c => c = '0')).reverse)

/-- Rendering of the scaled integer `r = round(q * 1000)` produced by
`toLocaleString('en-IN')`: sign, Indian-grouped integer digits, and up to 3
fractional digits without trailing zeros. -/
def toLocaleInt (r : ℤ) : String :=
  (if r < 0 then "-" else "") ++ groupIndian (r.natAbs / 1000) ++
    (if r.natAbs % 1000 = 0 then ""
     else "." ++ dropTrailZeros (padZeros 3 (toString (r.natAbs % 1000))))

/-- `Number.prototype.toLocaleString('en-IN')`: round to at most 3 fractional
digits (the Intl default), group the integer part Indian-style, and print the
fractional part without trailing zeros.  The embedding is used for the
non-negative amounts the report feeds it. -/
def toLocaleStringEnIN (q : ℚ) : String :=
  toLocaleInt (Int.floor (q * 1000 + 1 / 2))

/-- `formatCurrency` of variant V2 (`src/unnamed/part_001`, lines 1019-1026):
three-tier magnitude abbreviation — crore (`>= 10,000,000`), lakh
(`>= 100,000`), else `en-IN`-grouped number. -/
def formatCurrency (amount : ℚ) : String :=
  if amount ≥ 10000000 then "Rs " ++ toFixed 2 (amount / 10000000) ++ " Cr"
  else if amount ≥ 100000 then "Rs " ++ toFixed 2 (amount / 100000) ++ " L"
  else "Rs " ++ toLocaleStringEnIN amount

/-! ### The sanitizer `clean` (`src/unnamed/part_001`, lines 1033-1044)

The replacement chain is applied in source order: `₹ ↦ "Rs "`, curly single
quotes `↦ '`, curly double quotes `↦ "`, `  ↦ ' '`, `\s+ ↦ ' '`, strip
characters outside `\x20-\x7E`, `trim()`. -/

/-- The character class matched by JavaScript `\s` (and removed at the ends
by `String.prototype.trim`). -/
def isJsWs (c : Char) : Bool :=
  c = ' ' || c = '\t' || c = '\n' || c = '\r' ||
  c.toNat = 0x0B || c.toNat = 0x0C || c.toNat = 0xA0 || c.toNat = 0x1680 ||
  (0x2000 ≤ c.toNat && c.toNat ≤ 0x200A) ||
  c.toNat = 0x2028 || c.toNat = 0x2029 || c.toNat = 0x202F ||
  c.toNat = 0x205F || c.toNat = 0x3000 || c.toNat = 0xFEFF

/-- `.replace(/[₹]/g, 'Rs ')`. -/
def replaceRupee : List Char → List Char
  | [] => []
  | c :: rest =>
      if c = '₹' then 'R' :: 's' :: ' ' :: replaceRupee rest
      else c :: replaceRupee rest

/-- `.replace(/[‘’]/g, "'")`, `.replace(/[“”]/g, '"')`
and `.replace(/ /g, ' ')`, one character at a time. -/
def mapQuotesNbsp (c : Char) : Char :=
  if c = '‘' || c = '’' then '\''
  else if c = '“' || c = '”' then '"'
  else if c.toNat = 0xA0 then ' '
  else c

/-- `.replace(/\s+/g, ' ')`: every maximal run of whitespace becomes one
ASCII space.  `prevWs` records whether the previous character was part of a
run already collapsed. -/
def collapseWs (prevWs : Bool) : List Char → List Char
  | [] => []
  | c :: rest =>
      if isJsWs c then
        if prevWs then collapseWs true rest
        else ' ' :: collapseWs true rest
      else c :: collapseWs false rest

/-- `.replace(/[^\x20-\x7E]/g, '')`. -/
def stripNonPrintable (l : List Char) : List Char :=
  l.filter (fun c => 0x20 ≤ c.toNat && c.toNat ≤ 0x7E)

/-- `String.prototype.trim()`. -/
def jsTrim (l : List Char) : List Char :=
  ((l.dropWhile (fun c => isJsWs c)).reverse.dropWhile (fun c => isJsWs c)).reverse

/-- The sanitizer `clean` of `src/unnamed/part_001`, lines 1033-1044, on an
already-stringified value. -/
def clean (s : String) : String :=
  String.mk (jsTrim (stripNonPrintable (collapseWs false
    ((replaceRupee s.toList).map mapQuotesNbsp))))

/-! ### Data model (`ReportData`) and the derived KPIs

Embeds the fields of the `ReportData` interface that the headline-KPI
computation reads (`src/unnamed/part_001` lines 1175-1184, and the same
computation in `src/src/utils/pdfGenerator.ts` lines 211-221), plus a few
unrelated fields (`estimatedMissedValue`, `sellerName`, …) so that theorems
can express that the KPIs do not depend on them.  A win record's
`total_price` is `Option ℚ`: `none` models a missing field, defaulted by the
source's `win.total_price || 0`. -/

structure WinRecord where
  total_price : Option ℚ
deriving DecidableEq, Repr

structure MissedButWinnable where
  seller : String
  recentWins : List WinRecord
  marketWins : List WinRecord
deriving DecidableEq, Repr

structure ParamsUsed where
  sellerName : String
  department : String
  offeredItem : String
  days : ℚ
  limit : ℚ
  email : String
deriving DecidableEq, Repr

structure ReportMeta where
  report_generated_at : String
  params_used : ParamsUsed
deriving DecidableEq, Repr

structure ReportDataBag where
  estimatedMissedValue : Option ℚ
  missedButWinnable : Option MissedButWinnable
deriving DecidableEq, Repr

structure ReportData where
  meta : ReportMeta
  data : ReportDataBag
deriving DecidableEq, Repr

/-- `reportData.data.missedButWinnable?.recentWins || []`. -/
def winsOf (r : ReportData) : List WinRecord :=
  (r.data.missedButWinnable.map MissedButWinnable.recentWins).getD []

/-- `reportData.data.missedButWinnable?.marketWins || []`. -/
def marketWinsOf (r : ReportData) : List WinRecord :=
  (r.data.missedButWinnable.map MissedButWinnable.marketWins).getD []

/-- `const totalBids = wins.length + marketWins.length`. -/
def totalBids (r : ReportData) : ℕ := (winsOf r).length + (marketWinsOf r).length

/-- `const successCount = wins.length`. -/
def successCount (r : ReportData) : ℕ := (winsOf r).length

/-- `const losses = marketWins.length`. -/
def losses (r : ReportData) : ℕ := (marketWinsOf r).length

/-- `const winRate = totalBids > 0 ? ((successCount / totalBids) * 100) : 0`
(variant V2, line 1180; V1 additionally applies `toFixed(1)` at once). -/
def winRate (r : ReportData) : ℚ :=
  if 0 < totalBids r then ((successCount r : ℚ) / (totalBids r : ℚ)) * 100 else 0

/-- `wins.reduce((sum, win) => sum + (win.total_price || 0), 0)`. -/
def totalValue (r : ReportData) : ℚ :=
  (winsOf r).foldl (fun s w => s + w.total_price.getD 0) 0

/-- `successCount > 0 ? Math.round(totalValue / successCount) : 0`. -/
def avgValue (r : ReportData) : ℤ :=
  if 0 < successCount r then jsRound (totalValue r / (successCount r : ℚ)) else 0

/-- `totalBids / reportData.meta.params_used.days` (V2 line 1184; V1 applies
`toFixed(2)`).  ℚ division; the report's day-window parameter is positive,
and the theorems about this value assume `days ≠ 0`. -/
def avgBidsPerDay (r : ReportData) : ℚ :=
  (totalBids r : ℚ) / r.meta.params_used.days

/-- Text of the Win Rate KPI card, variant V2 line 1349:
`` doc.text(`${winRate.toFixed(1)}%`, …) ``. -/
def kpiWinRateText (r : ReportData) : String := toFixed 1 (winRate r) ++ "%"

/-- Text of the Total Bids KPI card, variant V2 line 1362:
`doc.text(totalBids.toString(), …)`. -/
def kpiTotalBidsText (r : ReportData) : String := toString (totalBids r)

/-- Text of the Successful Wins KPI card, variant V2 line 1377:
`doc.text(successCount.toString(), …)`. -/
def kpiSuccessText (r : ReportData) : String := toString (successCount r)

/-! ### Chart renderers: pie / donut slice geometry

`drawPieChart` (`src/src/utils/pdfGenerator.ts` lines 67-105) and
`drawModernDonutChart` (`src/unnamed/part_001` lines 1046-1086) both compute
`total = data.reduce((sum, item) => sum + item.value, 0)`, start at
`currentAngle = -Math.PI / 2`, give each entry the span
`(item.value / total) * 2 * Math.PI` and advance `currentAngle` by it.

Angles are embedded as their coefficient of π (a full turn is `2`).  A span
is an `Option ℚ`: `some` of the coefficient when `total ≠ 0`; `none` when
`total = 0`, standing for the non-finite JavaScript result of division by
zero (for the all-zero series of a degenerate chart each numerator is `0`,
so the float value is `0/0 = NaN`).  `jsAdd` propagates the non-finite
marker the way NaN propagates through `+`. -/

structure ChartDatum where
  label : String
  value : ℚ
  color : ℤ × ℤ × ℤ
deriving DecidableEq, Repr

/-- NaN-propagating addition on the angle accumulator. -/
def jsAdd : Option ℚ → Option ℚ → Option ℚ
  | some a, some b => some (a + b)
  | _, _ => none

/-- `(item.value / total) * 2` — the slice span in units of π, `none` when
`total = 0` (JavaScript `NaN` for the all-zero series). -/
def sliceSpan (total value : ℚ) : Option ℚ :=
  if total = 0 then none else some (value / total * 2)

/-- The `data.forEach` loop of `drawPieChart`: walks entries in input order,
emitting `(currentAngle, sliceAngle)` and advancing the accumulator. -/
def pieSliceAux (total : ℚ) : Option ℚ → List ChartDatum → List (Option ℚ × Option ℚ)
  | _, [] => []
  | cur, d :: rest =>
      let span := sliceSpan total d.value
      (cur, span) :: pieSliceAux total (jsAdd cur span) rest

/-- Slice geometry of `drawPieChart` (`src/src/utils/pdfGenerator.ts`
lines 74-100): start angle and span of each slice, in units of π. -/
def drawPieChartSlices (data : List ChartDatum) : List (Option ℚ × Option ℚ) :=
  pieSliceAux ((data.map ChartDatum.value).sum) (some (-(1 / 2))) data

/-- The `data.forEach` loop of `drawModernDonutChart`, embedded separately
from its own source (`src/unnamed/part_001` lines 1055-1082); the donut
draws two triangles per step onto two radii but computes the same
`(currentAngle, sliceAngle)` stream. -/
def donutSliceAux (total : ℚ) : Option ℚ → List ChartDatum → List (Option ℚ × Option ℚ)
  | _, [] => []
  | cur, d :: rest =>
      let span := sliceSpan total d.value
      (cur, span) :: donutSliceAux total (jsAdd cur span) rest

/-- Slice geometry of `drawModernDonutChart` (`src/unnamed/part_001`
lines 1046-1086), in units of π. -/
def drawModernDonutChartSlices (data : List ChartDatum) : List (Option ℚ × Option ℚ) :=
  donutSliceAux ((data.map ChartDatum.value).sum) (some (-(1 / 2))) data

/-- Number of iterations of the triangle-fan loop of `drawPieChart` for one
slice: `steps = Math.ceil((sliceAngle * 180) / Math.PI / 5)` and
`for (let i = 0; i <= steps; i++)`, i.e. `steps + 1` iterations when
`steps ≥ 0`.  In units of π the bound is `⌈span * 36⌉`, exactly (π cancels).
For a `none` (NaN) span, `steps` is NaN and the loop guard `i <= NaN` is
false at once, so the loop body never runs. -/
def fanTriangleCount : Option ℚ → ℕ
  | none => 0
  | some s =>
      let steps : ℤ := Int.ceil (s * 36)
      if 0 ≤ steps then steps.toNat + 1 else 0

/-- Total number of triangles emitted by `drawPieChart` over all slices. -/
def drawPieTriangles (data : List ChartDatum) : ℕ :=
  ((drawPieChartSlices data).map (fun sl => fanTriangleCount sl.2)).sum

/-! ### Chart renderers: horizontal bar chart

`drawBarChart` (`src/src/utils/pdfGenerator.ts` lines 108-141):
`const max = maxValue || Math.max(...data.map(d => d.value))`, then for each
entry `barWidth = (item.value / max) * width` and the drawn bar width is
`Math.max(barWidth, 2)`. -/

/-- `Math.max(...l)` — `none` for the empty list (JavaScript `-Infinity`). -/
def mathMax (l : List ℚ) : Option ℚ := l.maximum

/-- `maxValue || Math.max(...data.map(d => d.value))`: a supplied `maxValue`
is used unless it is absent (`none` = `undefined`) or `0` — both are falsy
in JavaScript and fall back to the series' own maximum. -/
def drawBarChartMax (data : List ChartDatum) (maxValue : Option ℚ) : Option ℚ :=
  match maxValue with
  | some m => if m = 0 then mathMax (data.map ChartDatum.value) else some m
  | none => mathMax (data.map ChartDatum.value)

/-- The drawn pixel length of each bar of `drawBarChart`, in input order:
`Math.max((item.value / max) * width, 2)`.  For empty data the `forEach`
draws nothing. -/
def drawBarChartLengths (width : ℚ) (data : List ChartDatum)
    (maxValue : Option ℚ) : List ℚ :=
  match drawBarChartMax data maxValue with
  | none => []
  | some m => data.map (fun d => max (d.value / m * width) 2)

/-! ### Canvas / page model and the page-break guard of variant V2

`src/unnamed/part_001` lines 1165-1232: constants `HEADER_H = 15`,
`FOOTER_H = 12`, `SAFE_TOP = HEADER_H + 3`,
`SAFE_BOTTOM = pageHeight - FOOTER_H - 5`; `addNewPage()` appends a page,
resets the cursor to `SAFE_TOP` and stamps the new page's header and footer;
`checkPageBreak(requiredSpace)` calls `addNewPage()` and returns `true` iff
`yPosition + requiredSpace > SAFE_BOTTOM`.

The document is modelled as the ordered list of the decoration / section
operations relevant to the claims: header and footer stamps (with the page
number they are stamped onto) and section-header bands. -/

inductive PdfOp where
  | headerStamp (page : ℕ)
  | footerStamp (page : ℕ)
  | sectionHeader (title : String)
deriving DecidableEq, Repr

structure LayoutState where
  page : ℕ
  y : ℚ
  ops : List PdfOp
deriving DecidableEq, Repr

def HEADER_H : ℚ := 15
def FOOTER_H : ℚ := 12
def SAFE_TOP : ℚ := HEADER_H + 3
def SAFE_BOTTOM (pageHeight : ℚ) : ℚ := pageHeight - FOOTER_H - 5

/-- `addNewPage` of variant V2 (lines 1186-1191): `doc.addPage()`,
`yPosition = SAFE_TOP`, `addPageHeader()`, `addPageFooter()` — the stamps
land on the freshly created page. -/
def addNewPage (st : LayoutState) : LayoutState :=
  ⟨st.page + 1, SAFE_TOP,
    st.ops ++ [PdfOp.headerStamp (st.page + 1), PdfOp.footerStamp (st.page + 1)]⟩

/-- `checkPageBreak` of variant V2 (lines 1226-1232). -/
def checkPageBreak (pageHeight : ℚ) (st : LayoutState) (requiredSpace : ℚ) :
    Bool × LayoutState :=
  if st.y + requiredSpace > SAFE_BOTTOM pageHeight then (true, addNewPage st)
  else (false, st)

/-! ### Section traces of the two generators

For the section-composition claims the document is projected to the ordered
list of section-header titles the generator emits.  Guards are transcribed
from the source; data-dependent guards are supplied as booleans describing
the payload. -/

/-- Payload facts inspected by the section guards. -/
structure SectionData where
  winsNonempty : Bool
  aiPresent : Bool
  likelyWinsNonempty : Bool
  guidancePresent : Bool
deriving DecidableEq, Repr

/-- Section-header titles emitted by `generatePDF` of
`src/src/utils/pdfGenerator.ts` (variant V1), in source order.  Filter
guards from lines 313, 518, 626, 703, 1015, 1163, 1230, 1315; the AI block
(lines 782-1013) and the final wins table (line 1410) are guarded by data
only.  `"Executive Summary"` is the banner V1 draws manually at line 322
inside the `bidsSummary` guard. -/
def v1Sections (filters : List String) (d : SectionData) : List String :=
  (if filters.contains "bidsSummary" then
    ["Executive Summary", "AI-Powered Strategic Insights"] else [])
  ++ (if d.aiPresent then
        ["Comprehensive AI Intelligence & Recommendations"]
        ++ (if d.likelyWinsNonempty then ["High-Probability Win Opportunities"] else [])
        ++ (if d.guidancePresent then ["Strategic Action Plan & Next Steps"] else [])
      else [])
  ++ (if filters.contains "marketOverview" then ["Overall Market Overview"] else [])
  ++ (if filters.contains "topPerformer" then ["Top Performer Department"] else [])
  ++ (if filters.contains "missedTenders" then ["Missed-but-Winnable Tenders"] else [])
  ++ (if filters.contains "buyerInsights" then ["Buyer / Department Insights"] else [])
  ++ (if filters.contains "rivalryScore" then ["Rivalry Scorecard"] else [])
  ++ (if filters.contains "lowCompetition" then
        ["Single-Bidder / Low-Competition Opportunities"] else [])
  ++ (if filters.contains "topStates" then ["Top Performing States / Geographies"] else [])
  ++ (if d.winsNonempty then ["Recent Successful Bids - Detailed List"] else [])

/-- Section-header titles emitted by `generatePDF` of variant V2
(`src/unnamed/part_001` lines 1161-1921), in source order.  Only the
Category Distribution block (line 1731) and the Recent Successful Bids block
(line 1757) consult `filters.includeSections`; in particular the Rivalry
Scorecard band (lines 1608-1610) is emitted unconditionally. -/
def v2Sections (filters : List String) (d : SectionData) : List String :=
  ["Performance Overview",
   "Summary of Bids Participated - Department-wise",
   "Overall Market Overview",
   "Top Performer Departments",
   "Missed-but-Winnable Tenders",
   "Buyer / Department Insights",
   "Rivalry Scorecard - Top Sellers",
   "Single-Bidder / Low-Competition Opportunities",
   "Top Performing States / Geographies"]
  ++ (if filters.contains "categoryAnalysis" then ["Category Distribution Analysis"] else [])
  ++ (if filters.contains "bidsSummary" && d.winsNonempty then
        ["Recent Successful Bids - Detailed View"] else [])
  ++ (if d.guidancePresent then ["Strategic Recommendations"] else [])

/-! ### Page-stamp traces of the two generators

For the cover-page claim the document is projected to the header/footer
stamps and the page they land on.  After the cover page, the body of either
generator is a straight-line sequence of blocks; every operation that can
stamp a page is one of:

* `addNewPage()` (stamps the new page's header and footer);
* a `checkPageBreak(h)` call (either a no-op or an `addNewPage()`);
* an `autoTable` whose `didDrawPage` hook stamps the current page each time
  the table draws on a page — unguarded in variant V2 (lines 1575-1578,
  1700-1703, 1822-1825), guarded by `data.pageNumber > 1` in variant V1
  (lines 1452-1457); V1's other tables have no hook, so pages they add are
  not stamped.

The body is therefore abstracted as an arbitrary list of `DynCmd`s, with the
numeric choices (did a break fire? how many pages did a table span?) as
parameters; the theorems quantify over every such list, hence over every
possible payload and filter selection. -/

inductive DynCmd where
  /-- an `addNewPage()` call -/
  | newPage
  /-- a `checkPageBreak(h)` call; `broke` tells whether the break fired -/
  | condBreak (broke : Bool)
  /-- an `autoTable` with an unguarded `didDrawPage` hook spanning
  `1 + extra` pages (variant V2) -/
  | table (extra : ℕ)
  /-- an `autoTable` whose hook stamps only when the page number exceeds 1
  (variant V1, lines 1452-1457) -/
  | tableGuarded (extra : ℕ)
  /-- an `autoTable` without a `didDrawPage` hook (most V1 tables):
  pages it adds are not stamped -/
  | tablePlain (extra : ℕ)
deriving DecidableEq, Repr

/-- Header and footer stamp of one page, in the order `addPageHeader();
addPageFooter()`. -/
def stampPage (p : ℕ) : List PdfOp := [PdfOp.headerStamp p, PdfOp.footerStamp p]

/-- Effect of one body operation on `(current page, stamped ops)`. -/
def execDyn (st : ℕ × List PdfOp) : DynCmd → ℕ × List PdfOp
  | DynCmd.newPage => (st.1 + 1, st.2 ++ stampPage (st.1 + 1))
  | DynCmd.condBreak b =>
      if b then (st.1 + 1, st.2 ++ stampPage (st.1 + 1)) else st
  | DynCmd.table extra =>
      (st.1 + extra,
        (st.2 ++ stampPage st.1) ++
          (List.range extra).flatMap (fun i => stampPage (st.1 + 1 + i)))
  | DynCmd.tableGuarded extra =>
      (st.1 + extra,
        (if 1 < st.1 then st.2 ++ stampPage st.1 else st.2) ++
          (List.range extra).flatMap (fun i => stampPage (st.1 + 1 + i)))
  | DynCmd.tablePlain extra => (st.1 + extra, st.2)

def execDyns (st : ℕ × List PdfOp) (cmds : List DynCmd) : ℕ × List PdfOp :=
  cmds.foldl execDyn st

/-- Stamp trace of variant V2's `generatePDF`: the cover page (lines
1258-1333) stamps nothing and calls no `checkPageBreak`; line 1336 is an
unconditional `addNewPage()`; the rest of the body is an arbitrary `DynCmd`
sequence. -/
def generatePDFv2Stamps (rest : List DynCmd) : List PdfOp :=
  (execDyns (1, []) (DynCmd.newPage :: rest)).2

/-- Stamp trace of variant V1's `generatePDF`
(`src/src/utils/pdfGenerator.ts`): the cover page (lines 223-311) stamps
nothing; the body is an arbitrary `DynCmd` sequence; lines 1461-1463 finish
with `doc.setPage(1); addPageFooter();`, an explicit footer stamp on the
first page. -/
def generatePDFv1Stamps (body : List DynCmd) : List PdfOp :=
  (execDyns (1, []) body).2 ++ [PdfOp.footerStamp 1]

/-- `body` contains no `autoTable` with an unguarded `didDrawPage` hook —
true of variant V1, whose only hook is guarded (lines 1452-1457). -/
def noUnguardedTable (body : List DynCmd) : Prop :=
  ∀ extra : ℕ, DynCmd.table extra ∉ body

/-- The page targeted by a decoration stamp. -/
def pageOf : PdfOp → Option ℕ
  | PdfOp.headerStamp p => some p
  | PdfOp.footerStamp p => some p
  | PdfOp.sectionHeader _ => none

/-- Every header/footer stamp in `ops` targets a page `≥ 2` (no stamp on the
cover page). -/
def stampsAfterCover (ops : List PdfOp) : Prop :=
  ∀ op ∈ ops, ∀ p : ℕ, pageOf op = some p → 2 ≤ p

/-! ### Concrete inputs used by witnesses and counterexamples -/

/-- A win of value 100,000. -/
def sampleWin : WinRecord := ⟨some 100000⟩

/-- A `ReportInput` with 3 recent wins of total value 300,000, 1 market win
and a 30-day window — the end-to-end example of the specification. -/
def sampleReport : ReportData :=
  ⟨⟨"2025-01-01T00:00:00Z", ⟨"Acme Traders", "Electronics", "Cables", 30, 25, "a@b.c"⟩⟩,
   ⟨none, some ⟨"Acme Traders", [sampleWin, sampleWin, sampleWin], [⟨none⟩]⟩⟩⟩

/-- A `ReportInput` whose 3 recent wins total 100, so that
`totalValue / recentWins.length = 100/3` is not an integer. -/
def unevenReport : ReportData :=
  ⟨⟨"2025-01-01T00:00:00Z", ⟨"Acme Traders", "Electronics", "Cables", 30, 25, "a@b.c"⟩⟩,
   ⟨none, some ⟨"Acme Traders", [⟨some 100⟩, ⟨some 0⟩, ⟨some 0⟩], []⟩⟩⟩

/-- A two-entry win/loss series (values 3 and 1). -/
def winLossSeries : List ChartDatum :=
  [⟨"Wins", 3, (16, 185, 129)⟩, ⟨"Losses", 1, (239, 68, 68)⟩]

/-- The win/loss series of a seller with no history: every value is 0. -/
def zeroSeries : List ChartDatum :=
  [⟨"Wins", 0, (16, 185, 129)⟩, ⟨"Losses", 0, (239, 68, 68)⟩]

/-- A one-bar series of value 1. -/
def singleBar : List ChartDatum := [⟨"a", 1, (0, 0, 0)⟩]

/-! ### Helper lemmas -/

theorem head?_dropWhile_false {α : Type} {p : α → Bool} {l : List α} {c : α}
    (h : (l.dropWhile p).head? = some c) : p c = false := by
  simpa [h] using List.head?_dropWhile_not p l

theorem mem_of_mem_jsTrim {l : List Char} {c : Char} (h : c ∈ jsTrim l) : c ∈ l := by
  rw [jsTrim, List.mem_reverse] at h
  have h2 := (List.dropWhile_sublist _).mem h
  rw [List.mem_reverse] at h2
  exact (List.dropWhile_sublist _).mem h2

theorem getLast?_jsTrim_not_ws {l : List Char} {c : Char}
    (h : (jsTrim l).getLast? = some c) : isJsWs c = false := by
  rw [jsTrim, List.getLast?_reverse] at h
  exact head?_dropWhile_false h

theorem head?_jsTrim_not_ws {l : List Char} {c : Char}
    (h : (jsTrim l).head? = some c) : isJsWs c = false := by
  rw [jsTrim, List.head?_reverse] at h
  obtain ⟨t, ht⟩ := List.dropWhile_suffix (l := (l.dropWhile (fun c => isJsWs c)).reverse)
    (fun c => isJsWs c)
  have hB : ((l.dropWhile (fun c => isJsWs c)).reverse).getLast? = some c := by
    rw [← ht, List.getLast?_append, h]
    rfl
  rw [List.getLast?_reverse] at hB
  exact head?_dropWhile_false hB

theorem toLocaleInt_natMul (n : ℕ) : toLocaleInt (1000 * (n : ℤ)) = groupIndian n := by
  rw [toLocaleInt]
  have h1 : ¬ (1000 * (n : ℤ) < 0) := by
    have : (0 : ℤ) ≤ 1000 * (n : ℤ) := by positivity
    omega
  have h2 : (1000 * (n : ℤ)).natAbs = 1000 * n := by
    rw [Int.natAbs_mul]
    rfl
  rw [if_neg h1, h2]
  have h3 : 1000 * n / 1000 = n := by omega
  have h4 : 1000 * n % 1000 = 0 := by omega
  rw [h3, h4, if_pos rfl]
  simp

theorem floor_natMul_thousand (n : ℕ) :
    Int.floor ((n : ℚ) * 1000 + 1 / 2) = 1000 * (n : ℤ) := by
  rw [Int.floor_eq_iff]
  constructor
  · push_cast
    linarith
  · push_cast
    linarith

/-- C5 — `formatCurrency` applies the three-tier magnitude abbreviation
exactly: amounts `≥ 10,000,000` render as `"Rs <amount/10^7 to 2 dp> Cr"`,
amounts `≥ 100,000` as `"Rs <amount/10^5 to 2 dp> L"`, smaller (integral)
amounts as an en-IN-grouped integer; in particular
`format(5000) = "Rs 5,000"`, `format(250000) = "Rs 2.50 L"` and
`format(120000000) = "Rs 12.00 Cr"`. -/
theorem formatCurrency_three_tier :
    (∀ q : ℚ, 10000000 ≤ q →
        formatCurrency q = "Rs " ++ toFixed 2 (q / 10000000) ++ " Cr")
    ∧ (∀ q : ℚ, 100000 ≤ q → q < 10000000 →
        formatCurrency q = "Rs " ++ toFixed 2 (q / 100000) ++ " L")
    ∧ (∀ n : ℕ, (n : ℚ) < 100000 →
        formatCurrency (n : ℚ) = "Rs " ++ groupIndian n)
    ∧ formatCurrency 5000 = "Rs 5,000"
    ∧ formatCurrency 250000 = "Rs 2.50 L"
    ∧ formatCurrency 120000000 = "Rs 12.00 Cr"
    := by
  refine ⟨?_, ?_, ?_, ?_, ?_, ?_⟩
  · intro q h
    rw [formatCurrency, if_pos h]
  · intro q h1 h2
    rw [formatCurrency, if_neg (by exact not_le.mpr h2), if_pos h1]
  · intro n h
    have h1 : ¬ ((n : ℚ) ≥ 10000000) := by
      intro hc
      linarith
    have h2 : ¬ ((n : ℚ) ≥ 100000) := by
      intro hc
      linarith
    rw [formatCurrency, if_neg h1, if_neg h2, toLocaleStringEnIN,
      floor_natMul_thousand, toLocaleInt_natMul]
  · have h : Int.floor ((5000 : ℚ) * 1000 + 1 / 2) = 5000000 := by
      rw [Int.floor_eq_iff] <;> norm_num
    rw [formatCurrency, if_neg (by norm_num), if_neg (by norm_num),
      toLocaleStringEnIN, h]
    decide
  · have h : Int.floor ((250000 : ℚ) / 100000 * 10 ^ 2 + 1 / 2) = 250 := by
      rw [Int.floor_eq_iff] <;> norm_num
    rw [formatCurrency, if_neg (by norm_num), if_pos (by norm_num), toFixed, h]
    decide
  · have h : Int.floor ((120000000 : ℚ) / 10000000 * 10 ^ 2 + 1 / 2) = 1200 := by
      rw [Int.floor_eq_iff] <;> norm_num
    rw [formatCurrency, if_pos (by norm_num), toFixed, h]
    decide

theorem formatCurrency_three_tier_witness :
    formatCurrency 20000000 = "Rs " ++ toFixed 2 ((20000000 : ℚ) / 10000000) ++ " Cr" :=
  formatCurrency_three_tier.1 20000000 (by norm_num)

/-- C6 — counterexample to single-spacing: on the specification's own example
the sanitizer leaves two adjacent spaces.  The whitespace collapse runs
before the printable-ASCII strip, so deleting the en dash of
`"₹ 1,000 – “demo”"` fuses its two surrounding (already collapsed) spaces
into a double space. -/
theorem clean_example_not_single_spaced :
    clean "₹ 1,000 – “demo”" = "Rs 1,000  \"demo\"" ∧
    [' ', ' '] <:+: (clean "₹ 1,000 – “demo”").toList := by
  constructor
  · decide
  · decide

/-- C6 (amended) — the sanitizer's output consists solely of printable ASCII
(`\x20`-`\x7E`) and is trimmed (it neither starts nor ends with a space);
curly quotes, the rupee sign and non-breaking spaces are rewritten and
whitespace runs are collapsed before the ASCII strip, but the strip may fuse
two spaces that surrounded a removed character, so the result is not always
single-spaced. -/
theorem clean_printable_and_trimmed (s : String) :
    (∀ c ∈ (clean s).toList, 0x20 ≤ c.toNat ∧ c.toNat ≤ 0x7E)
    ∧ (clean s).toList.head? ≠ some ' '
    ∧ (clean s).toList.getLast? ≠ some ' ' := by
  have htl : (clean s).toList
      = jsTrim (stripNonPrintable (collapseWs false
          ((replaceRupee s.toList).map mapQuotesNbsp))) := rfl
  refine ⟨?_, ?_, ?_⟩
  · intro c hc
    rw [htl] at hc
    have h2 := mem_of_mem_jsTrim hc
    rw [stripNonPrintable, List.mem_filter] at h2
    have h3 := h2.2
    rw [Bool.and_eq_true, decide_eq_true_eq, decide_eq_true_eq] at h3
    exact h3
  · intro hc
    rw [htl] at hc
    have := head?_jsTrim_not_ws hc
    simp [isJsWs] at this
  · intro hc
    rw [htl] at hc
    have := getLast?_jsTrim_not_ws hc
    simp [isJsWs] at this

theorem clean_printable_and_trimmed_witness :
    0x20 ≤ 'e'.toNat ∧ 'e'.toNat ≤ 0x7E :=
  (clean_printable_and_trimmed "demo").1 'e' (by decide)

theorem foldl_add_getD (l : List WinRecord) :
    ∀ a : ℚ, l.foldl (fun s w => s + w.total_price.getD 0) a
      = a + (l.map (fun w => w.total_price.getD 0)).sum := by
  induction l with
  | nil => intro a; simp
  | cons x t ih =>
    intro a
    rw [List.foldl_cons, ih, List.map_cons, List.sum_cons]
    ring

/-- C1 (amended) — the headline KPIs are recomputed from
`data.missedButWinnable.recentWins` / `.marketWins` (and `days`) alone:
`winRate = recentWins.length / (recentWins.length + marketWins.length) · 100`
(`0` when both lists are empty), `totalValue = Σ total_price`,
`avgValue = Math.round(totalValue / recentWins.length)` (`0` when there are
no wins) — the source rounds the quotient to the nearest integer rather
than taking the exact division the original claim stated (see the
counterexample) —, `avgBidsPerDay = totalBids / days`; two reports agreeing
on `missedButWinnable` and `days` get identical KPIs whatever their other
fields hold; and on the 3-wins / 1-market-win sample the rendered KPI cards
read `75.0%`, `4` and `3`. -/
theorem kpi_derivation :
    (∀ r : ReportData,
        winRate r = if 0 < (winsOf r).length + (marketWinsOf r).length
          then ((winsOf r).length : ℚ)
              / (((winsOf r).length : ℚ) + ((marketWinsOf r).length : ℚ)) * 100
          else 0)
    ∧ (∀ r : ReportData,
        totalValue r = ((winsOf r).map (fun w => w.total_price.getD 0)).sum)
    ∧ (∀ r : ReportData, 0 < (winsOf r).length →
        avgValue r = jsRound (totalValue r / ((winsOf r).length : ℚ)))
    ∧ (∀ r : ReportData, (winsOf r).length = 0 → avgValue r = 0)
    ∧ (∀ r : ReportData,
        avgBidsPerDay r
          = (((winsOf r).length : ℚ) + ((marketWinsOf r).length : ℚ))
              / r.meta.params_used.days)
    ∧ (∀ r r' : ReportData,
        r.data.missedButWinnable = r'.data.missedButWinnable →
        r.meta.params_used.days = r'.meta.params_used.days →
        winRate r = winRate r' ∧ totalValue r = totalValue r'
          ∧ avgValue r = avgValue r' ∧ avgBidsPerDay r = avgBidsPerDay r'
          ∧ totalBids r = totalBids r' ∧ successCount r = successCount r')
    ∧ kpiWinRateText sampleReport = "75.0%"
    ∧ kpiTotalBidsText sampleReport = "4"
    ∧ kpiSuccessText sampleReport = "3"
    := by
  have hrate : ∀ r : ReportData, winRate r
      = if 0 < (winsOf r).length + (marketWinsOf r).length
        then ((winsOf r).length : ℚ)
            / (((winsOf r).length : ℚ) + ((marketWinsOf r).length : ℚ)) * 100
        else 0 := by
    intro r
    rw [winRate, totalBids, successCount]
    split
    · push_cast
      rfl
    · rfl
  refine ⟨hrate, ?_, ?_, ?_, ?_, ?_, ?_, ?_, ?_⟩
  · intro r
    rw [totalValue, foldl_add_getD, zero_add]
  · intro r h
    rw [avgValue, successCount, if_pos h]
  · intro r h
    rw [avgValue, successCount, if_neg (by omega)]
  · intro r
    rw [avgBidsPerDay, totalBids]
    push_cast
    rfl
  · intro r r' h hd
    have hw : winsOf r = winsOf r' := by rw [winsOf, winsOf, h]
    have hm : marketWinsOf r = marketWinsOf r' := by rw [marketWinsOf, marketWinsOf, h]
    refine ⟨?_, ?_, ?_, ?_, ?_, ?_⟩
    · rw [winRate, winRate, totalBids, totalBids, successCount, successCount, hw, hm]
    · rw [totalValue, totalValue, hw]
    · rw [avgValue, avgValue, successCount, successCount, totalValue, totalValue, hw]
    · rw [avgBidsPerDay, avgBidsPerDay, totalBids, totalBids, hw, hm, hd]
    · rw [totalBids, totalBids, hw, hm]
    · rw [successCount, successCount, hw]
  · have hr : winRate sampleReport = 75 := by
      rw [hrate]
      have h1 : (winsOf sampleReport).length = 3 := by decide
      have h2 : (marketWinsOf sampleReport).length = 1 := by decide
      rw [h1, h2]
      norm_num
    have hf : Int.floor ((75 : ℚ) * 10 ^ 1 + 1 / 2) = 750 := by
      rw [Int.floor_eq_iff] <;> norm_num
    rw [kpiWinRateText, hr, toFixed, hf]
    decide
  · decide
  · decide

theorem kpi_derivation_witness :
    avgValue sampleReport
      = jsRound (totalValue sampleReport / ((winsOf sampleReport).length : ℚ)) :=
  kpi_derivation.2.2.1 sampleReport (by decide)

/-- C1 — counterexample to the exact-division reading of `avgValue`: the
source computes `Math.round(totalValue / successCount)`
(`src/src/utils/pdfGenerator.ts` line 220, `src/unnamed/part_001` line
1183).  On a report whose 3 recent wins total 100 the engine shows
`avgValue = round(100/3) = 33`, which differs from the exact quotient
`100/3` the claim states. -/
theorem avgValue_rounds_not_exact_division :
    avgValue unevenReport = 33
    ∧ totalValue unevenReport / ((winsOf unevenReport).length : ℚ) = 100 / 3
    ∧ ((avgValue unevenReport : ℚ)
        ≠ totalValue unevenReport / ((winsOf unevenReport).length : ℚ)) := by
  have ht : totalValue unevenReport = 100 := by
    rw [totalValue, foldl_add_getD]
    simp [unevenReport, winsOf]
  have hlen : (winsOf unevenReport).length = 3 := by decide
  have hcast : (((3 : ℕ)) : ℚ) = 3 := by norm_num
  have hfl : jsRound ((100 : ℚ) / 3) = 33 := by
    rw [jsRound, Int.floor_eq_iff] <;> norm_num
  have hdiv : totalValue unevenReport / ((winsOf unevenReport).length : ℚ)
      = 100 / 3 := by
    rw [ht, hlen, hcast]
  have hav : avgValue unevenReport = 33 := by
    rw [avgValue, if_pos (by decide : 0 < successCount unevenReport)]
    rw [ht, successCount, hlen, hcast]
    exact hfl
  refine ⟨hav, hdiv, ?_⟩
  rw [hav, hdiv]
  norm_num

/-- C2 — `checkPageBreak(h)` starts a new page and returns `true` exactly
when `yPosition + h` exceeds `SAFE_BOTTOM = pageHeight − FOOTER_H − 5`
(footer band 12 plus safety pad 5); otherwise it returns `false` and leaves
the whole layout state — page count, cursor and emitted decorations —
unchanged; on a break the cursor is reset to `SAFE_TOP` and the new page's
header and footer are stamped, in that order. -/
theorem checkPageBreak_contract (pageHeight : ℚ) (st : LayoutState) (h : ℚ) :
    ((checkPageBreak pageHeight st h).1 = true ↔
      st.y + h > pageHeight - FOOTER_H - 5)
    ∧ ((checkPageBreak pageHeight st h).1 = false →
        (checkPageBreak pageHeight st h).2 = st)
    ∧ (st.y + h > pageHeight - FOOTER_H - 5 →
        (checkPageBreak pageHeight st h).2.page = st.page + 1
        ∧ (checkPageBreak pageHeight st h).2.y = SAFE_TOP
        ∧ (checkPageBreak pageHeight st h).2.ops
            = st.ops ++ [PdfOp.headerStamp (st.page + 1),
                         PdfOp.footerStamp (st.page + 1)]) := by
  rw [checkPageBreak, SAFE_BOTTOM]
  split
  · next hgt => exact ⟨by simp [hgt], by simp, fun _ => ⟨rfl, rfl, rfl⟩⟩
  · next hle =>
    exact ⟨by simpa using hle, fun _ => rfl, fun hc => absurd hc hle⟩

theorem checkPageBreak_contract_witness :
    (checkPageBreak 297 ⟨3, 280, []⟩ 20).2.page = 3 + 1
    ∧ (checkPageBreak 297 ⟨3, 280, []⟩ 20).2.y = SAFE_TOP
    ∧ (checkPageBreak 297 ⟨3, 280, []⟩ 20).2.ops
        = [] ++ [PdfOp.headerStamp (3 + 1), PdfOp.footerStamp (3 + 1)] :=
  (checkPageBreak_contract 297 ⟨3, 280, []⟩ 20).2.2 (by norm_num [FOOTER_H])

theorem pieSliceAux_getElem (total : ℚ) (ht : total ≠ 0) :
    ∀ (l : List ChartDatum) (a : ℚ) (k : ℕ) (d : ChartDatum),
      l[k]? = some d →
      (pieSliceAux total (some a) l)[k]? =
        some (some (a + ((l.take k).map ChartDatum.value).sum / total * 2),
              some (d.value / total * 2)) := by
  intro l
  induction l with
  | nil => intro a k d hk; simp at hk
  | cons x t ih =>
    intro a k d hk
    cases k with
    | zero =>
      rw [List.getElem?_cons_zero] at hk
      injection hk with hk
      subst hk
      rw [pieSliceAux]
      simp [sliceSpan, ht]
    | succ k =>
      rw [List.getElem?_cons_succ] at hk
      rw [pieSliceAux]
      simp only [sliceSpan, if_neg ht, jsAdd]
      rw [List.getElem?_cons_succ]
      rw [ih (a + x.value / total * 2) k d hk]
      congr 2
      rw [List.take_succ_cons, List.map_cons, List.sum_cons]
      ring_nf

theorem pieSliceAux_length (total : ℚ) :
    ∀ (l : List ChartDatum) (c : Option ℚ), (pieSliceAux total c l).length = l.length := by
  intro l
  induction l with
  | nil => intro c; rfl
  | cons x t ih => intro c; rw [pieSliceAux]; simp [ih]

theorem sum_span_coeffs (total : ℚ) (l : List ChartDatum) :
    (l.map (fun d => d.value / total * 2)).sum
      = (l.map ChartDatum.value).sum / total * 2 := by
  induction l with
  | nil => simp
  | cons x t ih =>
    rw [List.map_cons, List.sum_cons, ih, List.map_cons, List.sum_cons]
    ring

/-- C3 — for a series with non-negative values and non-zero total, the pie
renderer walks the entries in input order (slice `k` belongs to entry `k`;
no sorting): slice `k` starts at `-π/2` plus the spans of all prior slices,
its span is `2π · value/total`, and the spans of all slices sum to exactly
`2π`.  Angles carry their coefficient of π; the final conjunct states the
span total in radians. -/
theorem drawPieChart_slice_geometry (data : List ChartDatum)
    (hnn : ∀ d ∈ data, 0 ≤ d.value)
    (ht : (data.map ChartDatum.value).sum ≠ 0) :
    (drawPieChartSlices data).length = data.length
    ∧ (∀ (k : ℕ) (d : ChartDatum), data[k]? = some d →
        (drawPieChartSlices data)[k]? =
          some (some (-(1 / 2)
                  + ((data.take k).map ChartDatum.value).sum
                      / (data.map ChartDatum.value).sum * 2),
                some (d.value / (data.map ChartDatum.value).sum * 2)))
    ∧ ((data.map (fun d => d.value / (data.map ChartDatum.value).sum * 2)).sum = 2)
    ∧ (((data.map (fun d =>
          d.value / (data.map ChartDatum.value).sum * 2)).sum : ℚ) : ℝ) * Real.pi
        = 2 * Real.pi := by
  have hsum :
      (data.map (fun d => d.value / (data.map ChartDatum.value).sum * 2)).sum = 2 := by
    rw [sum_span_coeffs, div_self ht]
    norm_num
  refine ⟨pieSliceAux_length _ data _, ?_, hsum, ?_⟩
  · intro k d hk
    exact pieSliceAux_getElem _ ht data (-(1 / 2)) k d hk
  · rw [hsum]
    norm_num

theorem drawPieChart_slice_geometry_witness :
    (drawPieChartSlices winLossSeries).length = winLossSeries.length :=
  (drawPieChart_slice_geometry winLossSeries (by decide)
    (by simp [winLossSeries]; norm_num)).1

theorem donutSliceAux_eq_pieSliceAux (total : ℚ) :
    ∀ (l : List ChartDatum) (c : Option ℚ),
      donutSliceAux total c l = pieSliceAux total c l := by
  intro l
  induction l with
  | nil => intro c; rfl
  | cons x t ih =>
    intro c
    rw [donutSliceAux, pieSliceAux, ih]

/-- C10 — the plain pie renderer and the donut renderer compute identical
slice geometry: the same `(start angle, span)` stream for every input
series (the two differ only in rasterization granularity and the punched
inner circle). -/
theorem donut_refines_pie (data : List ChartDatum) :
    drawModernDonutChartSlices data = drawPieChartSlices data := by
  rw [drawModernDonutChartSlices, drawPieChartSlices, donutSliceAux_eq_pieSliceAux]

theorem all_zero_of_nonneg_sum_zero :
    ∀ l : List ℚ, (∀ x ∈ l, 0 ≤ x) → l.sum = 0 → ∀ x ∈ l, x = 0 := by
  intro l
  induction l with
  | nil => intro _ _ x hx; simp at hx
  | cons a t ih =>
    intro hnn hsum x hx
    have hts : 0 ≤ t.sum := List.sum_nonneg (fun y hy => hnn y (List.mem_cons_of_mem a hy))
    have ha : 0 ≤ a := hnn a (List.mem_cons_self a t)
    rw [List.sum_cons] at hsum
    rcases List.mem_cons.mp hx with hxa | hxt
    · subst hxa; linarith
    · exact ih (fun y hy => hnn y (List.mem_cons_of_mem a hy)) (by linarith) x hxt

theorem pieSliceAux_zero_total_spans :
    ∀ (l : List ChartDatum) (c : Option ℚ) (sl : Option ℚ × Option ℚ),
      sl ∈ pieSliceAux 0 c l → sl.2 = none := by
  intro l
  induction l with
  | nil => intro c sl h; simp [pieSliceAux] at h
  | cons x t ih =>
    intro c sl h
    rw [pieSliceAux] at h
    rcases List.mem_cons.mp h with h1 | h2
    · subst h1; simp [sliceSpan]
    · exact ih _ sl h2

/-- C9 (amended) — for a series of non-negative values summing to zero each
slice's computed span is the JavaScript float `NaN` (the code divides
`0 / 0`), not a zero-length angle, and no slice geometry is drawn: the
triangle-fan loop compares its counter against a NaN bound, which fails at
once, so zero triangles are emitted. -/
theorem zero_total_draws_nothing (data : List ChartDatum)
    (hnn : ∀ d ∈ data, 0 ≤ d.value)
    (hsum : (data.map ChartDatum.value).sum = 0) :
    (∀ sl ∈ drawPieChartSlices data, sl.2 = none)
    ∧ drawPieTriangles data = 0 := by
  have hspans : ∀ sl ∈ drawPieChartSlices data, sl.2 = none := by
    intro sl h
    rw [drawPieChartSlices, hsum] at h
    exact pieSliceAux_zero_total_spans data _ sl h
  refine ⟨hspans, ?_⟩
  rw [drawPieTriangles]
  apply List.sum_eq_zero
  intro n hn
  rw [List.mem_map] at hn
  obtain ⟨sl, hsl, hval⟩ := hn
  rw [hspans sl hsl] at hval
  exact hval.symm

/-- C9 — counterexample to the zero-length-span wording: on the all-zero
win/loss series the computed spans are `NaN` (`none`), not the zero angle,
even though indeed no triangle is drawn. -/
theorem zero_total_span_is_nan_not_zero :
    (drawPieChartSlices zeroSeries).map Prod.snd = [none, none]
    ∧ (drawPieChartSlices zeroSeries).map Prod.snd ≠ [some 0, some 0]
    ∧ drawPieTriangles zeroSeries = 0 := by
  have hsum : ((zeroSeries.map ChartDatum.value).sum : ℚ) = 0 := by
    simp [zeroSeries]
  have h1 : drawPieChartSlices zeroSeries
      = [(some (-(1 / 2)), none), (none, none)] := by
    rw [drawPieChartSlices, hsum]
    simp [pieSliceAux, sliceSpan, jsAdd]
  refine ⟨by rw [h1]; rfl, by rw [h1]; simp, ?_⟩
  rw [drawPieTriangles, h1]
  rfl

theorem zero_total_draws_nothing_witness :
    drawPieTriangles zeroSeries = 0 :=
  (zero_total_draws_nothing zeroSeries (by decide) (by simp [zeroSeries])).2

/-- C4 — counterexample: the 2-px floor can exceed the track width.  With a
1-px track and the single bar of value 1 (its own maximum), the drawn length
is `Math.max(1 · 1/1, 2) = 2 > 1 = trackWidth`, so `length ≤ trackWidth`
fails, and the bar of maximal value does not have length `trackWidth`. -/
theorem bar_length_exceeds_narrow_track :
    drawBarChartLengths 1 singleBar none = [2] ∧ ¬ ((2 : ℚ) ≤ 1) := by
  constructor
  · have hm : drawBarChartMax singleBar none = some 1 := by
      rw [drawBarChartMax, singleBar, mathMax]
      rfl
    rw [drawBarChartLengths, hm, singleBar]
    simp only [List.map_cons, List.map_nil]
    norm_num
  · norm_num

/-- C4 (amended) — each bar's drawn length is
`max(trackWidth · value/max, 2)`; provided the track is at least 2 px wide,
`0 < length ≤ trackWidth` for every bar with `0 < value ≤ max`,
`length = trackWidth` when `value = max`, and for tracks strictly wider than
2 px `length = trackWidth` exactly when `value = max`.  The 2-px floor makes
both bounds fail on tracks narrower than 2 px. -/
theorem bar_length_bounds (width : ℚ) (data : List ChartDatum)
    (maxv : Option ℚ) (m : ℚ)
    (hm : drawBarChartMax data maxv = some m)
    (hw : 2 ≤ width) :
    (drawBarChartLengths width data maxv
      = data.map (fun d => max (d.value / m * width) 2))
    ∧ (∀ d ∈ data, 0 < d.value → d.value ≤ m →
        0 < max (d.value / m * width) 2
        ∧ max (d.value / m * width) 2 ≤ width
        ∧ (d.value = m → max (d.value / m * width) 2 = width)
        ∧ (2 < width → (max (d.value / m * width) 2 = width ↔ d.value = m))) := by
  constructor
  · rw [drawBarChartLengths, hm]
  · intro d _ hv hvm
    have hm0 : 0 < m := lt_of_lt_of_le hv hvm
    have hw0 : (0 : ℚ) < width := by linarith
    have hbw : d.value / m * width ≤ width := by
      have h1 : d.value / m ≤ 1 := (div_le_one hm0).mpr hvm
      calc d.value / m * width ≤ 1 * width :=
            mul_le_mul_of_nonneg_right h1 (le_of_lt hw0)
        _ = width := one_mul width
    have heq : d.value = m → max (d.value / m * width) 2 = width := by
      intro he
      rw [he, div_self (ne_of_gt hm0), one_mul]
      exact max_eq_left hw
    refine ⟨lt_of_lt_of_le two_pos (le_max_right _ _), max_le hbw hw, heq, ?_⟩
    intro hw2
    constructor
    · intro hlen
      rcases le_or_lt (d.value / m * width) 2 with hle | hgt
      · rw [max_eq_right hle] at hlen
        exact absurd hlen.symm (ne_of_gt hw2)
      · rw [max_eq_left (le_of_lt hgt)] at hlen
        have : d.value / m = 1 := by
          have := mul_right_cancel₀ (ne_of_gt hw0) (hlen.trans (one_mul width).symm)
          exact this
        calc d.value = d.value / m * m := by field_simp
          _ = 1 * m := by rw [this]
          _ = m := one_mul m
    · exact heq

theorem bar_length_bounds_witness :
    drawBarChartLengths 100 singleBar none
      = singleBar.map (fun d => max (d.value / 1 * 100) 2) :=
  (bar_length_bounds 100 singleBar none 1
    (by rw [drawBarChartMax, singleBar, mathMax]; rfl) (by norm_num)).1

theorem mem_ite_nil_iff {α : Type} (b : Prop) [Decidable b] (l : List α) (a : α) :
    a ∈ (if b then l else []) ↔ b ∧ a ∈ l := by
  split
  · next hb => simp [hb]
  · next hb => simp [hb]

/-- C7 (amended) — in the `pdfGenerator.ts` generator every filter-guarded
section (`bidsSummary`, `marketOverview`, `topPerformer`, `missedTenders`,
`buyerInsights`, `rivalryScore`, `lowCompetition`, `topStates`) is
suppressed when its identifier is absent from the selection — in particular
no Rivalry Scorecard block is emitted without `"rivalryScore"`; in the
`part_001` variant the two filter-guarded blocks (`categoryAnalysis`,
`bidsSummary`) are suppressed likewise, but its Rivalry Scorecard block is
emitted unconditionally (see the counterexample). -/
theorem unselected_sections_suppressed (filters : List String) (d : SectionData) :
    (filters.contains "rivalryScore" = false →
        "Rivalry Scorecard" ∉ v1Sections filters d)
    ∧ (filters.contains "bidsSummary" = false →
        "Executive Summary" ∉ v1Sections filters d)
    ∧ (filters.contains "marketOverview" = false →
        "Overall Market Overview" ∉ v1Sections filters d)
    ∧ (filters.contains "topPerformer" = false →
        "Top Performer Department" ∉ v1Sections filters d)
    ∧ (filters.contains "missedTenders" = false →
        "Missed-but-Winnable Tenders" ∉ v1Sections filters d)
    ∧ (filters.contains "buyerInsights" = false →
        "Buyer / Department Insights" ∉ v1Sections filters d)
    ∧ (filters.contains "lowCompetition" = false →
        "Single-Bidder / Low-Competition Opportunities" ∉ v1Sections filters d)
    ∧ (filters.contains "topStates" = false →
        "Top Performing States / Geographies" ∉ v1Sections filters d)
    ∧ (filters.contains "categoryAnalysis" = false →
        "Category Distribution Analysis" ∉ v2Sections filters d)
    ∧ (filters.contains "bidsSummary" = false →
        "Recent Successful Bids - Detailed View" ∉ v2Sections filters d) := by
  refine ⟨?_, ?_, ?_, ?_, ?_, ?_, ?_, ?_, ?_, ?_⟩ <;>
    intro h <;>
    simp [v1Sections, v2Sections, mem_ite_nil_iff, h] <;>
    first
      | simpa using h
      | exact fun hc => absurd hc (by simpa using h)

/-- C7 — counterexample: the `part_001` generator emits the Rivalry
Scorecard band even when `"rivalryScore"` is not in the selection (the block
at `src/unnamed/part_001` lines 1608-1610 has no `includeSections` guard). -/
theorem rivalry_emitted_without_selection :
    (["bidsSummary"] : List String).contains "rivalryScore" = false
    ∧ "Rivalry Scorecard - Top Sellers"
        ∈ v2Sections ["bidsSummary"] ⟨true, true, true, true⟩ := by
  constructor
  · decide
  · decide

theorem unselected_sections_suppressed_witness :
    "Rivalry Scorecard" ∉ v1Sections ["bidsSummary"] ⟨true, true, true, true⟩ :=
  (unselected_sections_suppressed ["bidsSummary"] ⟨true, true, true, true⟩).1 (by decide)


theorem stampsAfterCover_append {a b : List PdfOp}
    (ha : stampsAfterCover a) (hb : stampsAfterCover b) :
    stampsAfterCover (a ++ b) := by
  intro op hop p hp
  rcases List.mem_append.mp hop with h | h
  · exact ha op h p hp
  · exact hb op h p hp

theorem stampsAfterCover_stampPage {q : ℕ} (h : 2 ≤ q) :
    stampsAfterCover (stampPage q) := by
  intro op hop p hp
  rcases List.mem_cons.mp hop with h1 | h1
  · subst h1; injection hp with hp; omega
  · rcases List.mem_singleton.mp h1 with rfl
    injection hp with hp; omega

theorem stampsAfterCover_tablePages {n base : ℕ} (h : 1 ≤ base) :
    stampsAfterCover ((List.range n).flatMap (fun i => stampPage (base + 1 + i))) := by
  intro op hop p hp
  rcases List.mem_flatMap.mp hop with ⟨i, _, hmem⟩
  rcases List.mem_cons.mp hmem with h1 | h1
  · subst h1; injection hp with hp; omega
  · rcases List.mem_singleton.mp h1 with rfl
    injection hp with hp; omega

theorem execDyn_preserves (st : ℕ × List PdfOp) (c : DynCmd)
    (hp : 2 ≤ st.1) (hops : stampsAfterCover st.2) :
    2 ≤ (execDyn st c).1 ∧ stampsAfterCover (execDyn st c).2 := by
  rcases c with _ | b | extra | extra | extra
  · exact ⟨by show 2 ≤ st.1 + 1; omega,
      stampsAfterCover_append hops (stampsAfterCover_stampPage (by omega))⟩
  · cases b
    · simpa [execDyn] using ⟨hp, hops⟩
    · exact ⟨by show 2 ≤ st.1 + 1; omega,
        stampsAfterCover_append hops (stampsAfterCover_stampPage (by omega))⟩
  · exact ⟨by show 2 ≤ st.1 + extra; omega,
      stampsAfterCover_append
        (stampsAfterCover_append hops (stampsAfterCover_stampPage hp))
        (stampsAfterCover_tablePages (by omega))⟩
  · refine ⟨by show 2 ≤ st.1 + extra; omega, ?_⟩
    refine stampsAfterCover_append ?_ (stampsAfterCover_tablePages (by omega))
    by_cases h1 : 1 < st.1
    · simp only [execDyn, if_pos h1]
      exact stampsAfterCover_append hops (stampsAfterCover_stampPage hp)
    · simp only [execDyn, if_neg h1]
      exact hops
  · exact ⟨by show 2 ≤ st.1 + extra; omega, hops⟩

theorem execDyns_preserves (cmds : List DynCmd) :
    ∀ st : ℕ × List PdfOp, 2 ≤ st.1 → stampsAfterCover st.2 →
      2 ≤ (execDyns st cmds).1 ∧ stampsAfterCover (execDyns st cmds).2 := by
  induction cmds with
  | nil => intro st hp hops; exact ⟨hp, hops⟩
  | cons c cs ih =>
    intro st hp hops
    rw [execDyns, List.foldl_cons]
    have h := execDyn_preserves st c hp hops
    exact ih (execDyn st c) h.1 h.2

theorem execDyn_guarded_preserves (st : ℕ × List PdfOp) (c : DynCmd)
    (hc : ∀ k : ℕ, c ≠ DynCmd.table k)
    (hp : 1 ≤ st.1) (hops : stampsAfterCover st.2) :
    1 ≤ (execDyn st c).1 ∧ stampsAfterCover (execDyn st c).2 := by
  rcases c with _ | b | extra | extra | extra
  · exact ⟨by show 1 ≤ st.1 + 1; omega,
      stampsAfterCover_append hops (stampsAfterCover_stampPage (by omega))⟩
  · cases b
    · simpa [execDyn] using ⟨hp, hops⟩
    · exact ⟨by show 1 ≤ st.1 + 1; omega,
        stampsAfterCover_append hops (stampsAfterCover_stampPage (by omega))⟩
  · exact absurd rfl (hc extra)
  · refine ⟨by show 1 ≤ st.1 + extra; omega, ?_⟩
    refine stampsAfterCover_append ?_ (stampsAfterCover_tablePages hp)
    by_cases h1 : 1 < st.1
    · simp only [execDyn, if_pos h1]
      exact stampsAfterCover_append hops (stampsAfterCover_stampPage (by omega))
    · simp only [execDyn, if_neg h1]
      exact hops
  · exact ⟨by show 1 ≤ st.1 + extra; omega, hops⟩

theorem execDyns_guarded_preserves (cmds : List DynCmd) :
    ∀ st : ℕ × List PdfOp, noUnguardedTable cmds → 1 ≤ st.1 → stampsAfterCover st.2 →
      1 ≤ (execDyns st cmds).1 ∧ stampsAfterCover (execDyns st cmds).2 := by
  induction cmds with
  | nil => intro st _ hp hops; exact ⟨hp, hops⟩
  | cons c cs ih =>
    intro st hg hp hops
    rw [execDyns, List.foldl_cons]
    have hc : ∀ k : ℕ, c ≠ DynCmd.table k := by
      intro k hk
      exact hg k (hk ▸ List.mem_cons_self c cs)
    have hcs : noUnguardedTable cs := by
      intro k hk
      exact hg k (List.mem_cons_of_mem c hk)
    have h := execDyn_guarded_preserves st c hc hp hops
    exact ih (execDyn st c) hcs h.1 h.2

/-- C8 (amended) — cover-page stamping across both generators: in the
`part_001` generator every header/footer stamp targets a page `≥ 2` (the
cover page is never stamped), for every possible body; in `pdfGenerator.ts`
every header stamp targets a page `≥ 2`, but the generator's final
`doc.setPage(1); addPageFooter()` deliberately stamps the standard footer
onto the cover page, so footer stamps target page 1 or pages `≥ 2` and the
page-1 footer is always present. -/
theorem cover_page_stamp_exemption (rest body : List DynCmd)
    (hbody : noUnguardedTable body) :
    (∀ p : ℕ, (PdfOp.headerStamp p ∈ generatePDFv2Stamps rest
        ∨ PdfOp.footerStamp p ∈ generatePDFv2Stamps rest) → 2 ≤ p)
    ∧ (∀ p : ℕ, PdfOp.headerStamp p ∈ generatePDFv1Stamps body → 2 ≤ p)
    ∧ (∀ p : ℕ, PdfOp.footerStamp p ∈ generatePDFv1Stamps body → p = 1 ∨ 2 ≤ p)
    ∧ PdfOp.footerStamp 1 ∈ generatePDFv1Stamps body := by
  have hv2 : stampsAfterCover (generatePDFv2Stamps rest) := by
    rw [generatePDFv2Stamps, execDyns, List.foldl_cons]
    have h0 : stampsAfterCover (execDyn (1, []) DynCmd.newPage).2 := by
      intro op hop p hp
      rcases List.mem_cons.mp hop with h1 | h1
      · subst h1; injection hp with hp; omega
      · rcases List.mem_singleton.mp h1 with rfl
        injection hp with hp; omega
    exact (execDyns_preserves rest (execDyn (1, []) DynCmd.newPage) (by rfl) h0).2
  have hv1 : stampsAfterCover (execDyns (1, []) body).2 := by
    refine (execDyns_guarded_preserves body (1, []) hbody (by rfl) ?_).2
    intro op hop
    simp at hop
  refine ⟨?_, ?_, ?_, ?_⟩
  · intro p hmem
    rcases hmem with h | h
    · exact hv2 _ h p rfl
    · exact hv2 _ h p rfl
  · intro p hmem
    rw [generatePDFv1Stamps] at hmem
    rcases List.mem_append.mp hmem with h | h
    · exact hv1 _ h p rfl
    · simp at h
  · intro p hmem
    rw [generatePDFv1Stamps] at hmem
    rcases List.mem_append.mp hmem with h | h
    · exact Or.inr (hv1 _ h p rfl)
    · rcases List.mem_singleton.mp h with h1
      injection h1 with h1
      omega
  · rw [generatePDFv1Stamps]
    exact List.mem_append_right _ (List.mem_singleton.mpr rfl)

/-- C8 — counterexample: with every optional section off and no wins, the
run of `pdfGenerator.ts` stamps exactly one decoration — the standard footer
onto the very first (cover) page (lines 1461-1463:
`doc.setPage(1); addPageFooter()`). -/
theorem v1_stamps_footer_on_cover :
    generatePDFv1Stamps [] = [PdfOp.footerStamp 1]
    ∧ PdfOp.footerStamp 1 ∈ generatePDFv1Stamps [] := by
  exact ⟨rfl, by decide⟩

theorem cover_page_stamp_exemption_witness :
    PdfOp.footerStamp 1 ∈ generatePDFv1Stamps [DynCmd.newPage] :=
  (cover_page_stamp_exemption [] [DynCmd.newPage]
    (by intro k hk; simp at hk)).2.2.2
